import Mathlib

/-!
Verification of the reconciliation core of the weather ETL pipeline
(src/transformation.py): the functions `to_flat_schema` and `merge_flat`.

Modelling conventions (shallow embedding of the pandas code):

* A DataFrame is a `Frame`: a list of column names plus a list of rows.
  A row is an association list from column names to cell values; a cell of a
  column that the frame does not declare is never read (pandas reads cells
  through the frame column set, which `cellVal` reproduces).
* A raw date value (the join key) is a `DateVal`: `valid d` is a calendar
  date whose ISO rendering is abstracted by the day number `d` (the rendering
  is injective and order preserving, so equality and ordering of ISO strings
  coincide with those of the day numbers); `junk t` is a value that
  `pd.to_datetime(..., errors="coerce")` turns into `NaT`, with distinct tags
  standing for distinct raw unparseable values (pandas merges compare raw
  values, and two equal unparseable values, e.g. two `NaT`, do match).
* `Val.iso n` abstracts the ISO date string of day `n`; `Val.ts t` abstracts
  a civil timestamp of second count `t` (both the parsed `Timestamp` and its
  fixed `strftime` rendering, which is faithful at second precision);
  `Val.num` is a numeric cell, `Val.str` a non datetime text cell, and
  `Val.na` a missing value (`NaN`/`NaT`/`<NA>`).
* Numeric measurements are carried as `Int`: the code never computes with
  them, it only moves them, so only identity of values matters.
* `sort_values(by="date")` is modelled as an insertion sort on the date key
  with missing keys last, matching the documented `na_position="last"`
  behaviour; note that the source sorts with the pandas default kind, whose
  order on rows with equal present keys is not documented to be stable.
-/

/-- Raw date values used as join keys, see the module docstring. -/
inductive DateVal where
  | valid (day : Nat)
  | junk (tag : Nat)
deriving DecidableEq

/-- Result of `pd.to_datetime(..., errors="coerce").dt.date` on a raw date
value: the day number for a parseable value, `none` (`NaT`) otherwise. -/
def parseDate : DateVal → Option Nat
  | .valid d => some d
  | .junk _ => none

/-- Cell values of a frame, see the module docstring. -/
inductive Val where
  | num (x : Int)
  | str (s : String)
  | date (d : DateVal)
  | iso (n : Nat)
  | ts (t : Nat)
  | na
deriving DecidableEq

/-- A row: an association list from column names to cell values. -/
abbrev Row := List (String × Val)

/-- A DataFrame: column names plus rows. -/
structure Frame where
  cols : List String
  rows : List Row
deriving DecidableEq

/-- The 10 final fields, transformation.py lines 9 to 13. -/
def FLAT_COLUMNS : List String :=
  ["date", "data_type", "source", "ingested_at",
   "obs_tmax_c", "obs_tmin_c", "obs_precip_mm",
   "fc_tmax_c", "fc_tmin_c", "fc_precip_mm"]

/-- `pd.to_datetime(v, errors="coerce").dt.date` on a single cell: date
values parse as themselves, an ISO date string parses back to its day, a
timestamp truncates to its calendar day; numeric cells, plain text and
missing values coerce to `NaT` (the numeric epoch interpretation pandas
would attempt on raw numbers is outside the modelled input space). -/
def parseDateVal : Val → Option Nat
  | .date d => parseDate d
  | .iso n => some n
  | .ts t => some (t / 86400)
  | _ => none

/-- Value of column `c` of row `r` as pandas sees it: reading a declared
column falls back to `NaN` for a row without that cell, and a column that is
absent from the frame is the one `to_flat_schema` just created as `np.nan`
(transformation.py lines 23 to 25). -/
def cellVal (cols : List String) (r : Row) (c : String) : Val :=
  if cols.contains c then (r.lookup c).getD .na else .na

/-- Lines 23 to 28: create the missing canonical columns as NA and select
exactly `FLAT_COLUMNS` in order (`out = out[FLAT_COLUMNS]`). -/
def projectRow (cols : List String) (r : Row) : Row :=
  FLAT_COLUMNS.map fun c => (c, cellVal cols r c)

/-- Line 31 on one date cell: coerce to a date and render as an ISO string;
an unparseable value becomes missing. -/
def fixDateCell (v : Val) : Val :=
  match parseDateVal v with
  | some n => .iso n
  | none => .na

/-- Line 31 on a whole row: only the date column is rewritten. -/
def fixDateRow (r : Row) : Row :=
  r.map fun cv => if cv.1 = "date" then (cv.1, fixDateCell cv.2) else cv

/-- Sort key of a normalized row: its ISO date, `none` when missing. -/
def dateKey (r : Row) : Option Nat :=
  match r.lookup "date" with
  | some (.iso n) => some n
  | _ => none

/-- Ascending order on date keys with missing keys last
(`na_position="last"`). -/
def keyLe : Option Nat → Option Nat → Bool
  | some a, some b => a ≤ b
  | some _, none => true
  | none, some _ => false
  | none, none => true

/-- Row comparison used by the final sort (line 32). -/
def rowLe (a b : Row) : Prop := keyLe (dateKey a) (dateKey b) = true

instance : DecidableRel rowLe := fun a b =>
  inferInstanceAs (Decidable (keyLe (dateKey a) (dateKey b) = true))

instance : IsTotal Row rowLe where
  total a b := by
    unfold rowLe
    rcases dateKey a with _ | x <;> rcases dateKey b with _ | y
    all_goals simp [keyLe]
    omega

instance : IsTrans Row rowLe where
  trans a b c := by
    unfold rowLe
    rcases dateKey a with _ | x <;> rcases dateKey b with _ | y <;>
      rcases dateKey c with _ | z
    all_goals simp [keyLe]
    all_goals omega

/-- transformation.py lines 15 to 33: force the exact 10 column schema,
normalize the date column, and sort by it. -/
def to_flat_schema (df : Frame) : Frame :=
  ⟨FLAT_COLUMNS,
   List.insertionSort rowLe ((df.rows.map (projectRow df.cols)).map fixDateRow)⟩

/-- One raw input record, the shape both ingestion producers emit (date key
plus the nine value and metadata columns); `ingested_at` holds the parsed
timestamp, `none` for a missing or unparseable one. -/
structure RawRow where
  date : DateVal
  obs_tmax_c : Option Int
  obs_tmin_c : Option Int
  obs_precip_mm : Option Int
  fc_tmax_c : Option Int
  fc_tmin_c : Option Int
  fc_precip_mm : Option Int
  data_type : Option String
  source : Option String
  ingested_at : Option Nat
deriving DecidableEq

/-- One row of the merged frame after the outer join on the date key: the
key together with the matched row of each side (`none` when that side has no
row with this key, in which case all its suffixed cells are `NaN`). -/
structure MergedRow where
  date : DateVal
  hist : Option RawRow
  fc : Option RawRow
deriving DecidableEq

/-- The merged rows a single left (historical) row produces: one per
matching right row, or a single right padded row when nothing matches. -/
def matchLeft (F : List RawRow) (h : RawRow) : List MergedRow :=
  let ms := F.filter fun f => f.date == h.date
  if ms.isEmpty then [⟨h.date, some h, none⟩]
  else ms.map fun f => ⟨h.date, some h, some f⟩

/-- Lines 43 to 47, `pd.merge(eccc_df, fc_df, on="date", how="outer")`:
every left row paired with its key matches, then the right rows whose key
matches no left row, padded on the left. -/
def outerJoin (H F : List RawRow) : List MergedRow :=
  (H.flatMap (matchLeft F)) ++
    ((F.filter fun f => !(H.any fun h => h.date == f.date)).map
      fun f => ⟨f.date, none, some f⟩)

/-- The Python builtin `max(a, b)` on two possibly `NaT` timestamps: it
returns `b` when `b > a` and `a` otherwise, and every comparison against
`NaT` is false, so a `NaT` first argument wins over any second argument. -/
def pyMax (a b : Option Nat) : Option Nat :=
  match a, b with
  | some x, some y => if x < y then some y else some x
  | none, _ => none
  | some x, none => some x

/-- Lines 50 to 54: the combine lambda for `ingested_at`,
`max(a, b) if (pd.notna(a) or pd.notna(b)) else pd.NaT`. -/
def iaResolve (a b : Option Nat) : Option Nat :=
  if a.isSome || b.isSome then pyMax a b else none

/-- A possibly missing numeric cell. -/
def numVal : Option Int → Val
  | some x => .num x
  | none => .na

/-- A possibly missing text cell. -/
def strVal : Option String → Val
  | some s => .str s
  | none => .na

/-- A possibly missing timestamp cell (`strftime` rendering for a present
value, `NaN` for `NaT`). -/
def tsVal : Option Nat → Val
  | some t => .ts t
  | none => .na

/-- Columns of the merged frame after step 6 dropped the suffixed ones: the
join key and the nine columns assigned in steps 2 to 5 (the subsequent
`to_flat_schema` projection reorders them canonically). -/
def MERGED_COLUMNS : List String :=
  ["date", "ingested_at",
   "obs_tmax_c", "obs_tmin_c", "obs_precip_mm",
   "fc_tmax_c", "fc_tmin_c", "fc_precip_mm",
   "data_type", "source"]

/-- transformation.py lines 50 to 75 on one merged row: resolve
`ingested_at` by the combine lambda, copy the observed fields from the
historical side and the forecast fields from the forecast side, classify
the row and pick its source by the `np.where` precedence chains. -/
def resolveRow (m : MergedRow) : Row :=
  let iaH := m.hist.bind RawRow.ingested_at
  let iaF := m.fc.bind RawRow.ingested_at
  let obsTmax := m.hist.bind RawRow.obs_tmax_c
  let obsTmin := m.hist.bind RawRow.obs_tmin_c
  let obsPrec := m.hist.bind RawRow.obs_precip_mm
  let fcTmax := m.fc.bind RawRow.fc_tmax_c
  let fcTmin := m.fc.bind RawRow.fc_tmin_c
  let fcPrec := m.fc.bind RawRow.fc_precip_mm
  let hasHist := obsTmax.isSome || obsTmin.isSome || obsPrec.isSome
  let hasFc := fcTmax.isSome || fcTmin.isSome || fcPrec.isSome
  [("date", .date m.date),
   ("ingested_at", tsVal (iaResolve iaH iaF)),
   ("obs_tmax_c", numVal obsTmax),
   ("obs_tmin_c", numVal obsTmin),
   ("obs_precip_mm", numVal obsPrec),
   ("fc_tmax_c", numVal fcTmax),
   ("fc_tmin_c", numVal fcTmin),
   ("fc_precip_mm", numVal fcPrec),
   ("data_type", .str (if hasHist then "historical"
                       else if hasFc then "forecast" else "unknown")),
   ("source", strVal (if hasHist then m.hist.bind RawRow.source
                      else if hasFc then m.fc.bind RawRow.source else none))]

/-- transformation.py lines 35 to 82: full outer join on the date key,
field and metadata resolution, then schema normalization. -/
def merge_flat (H F : List RawRow) : Frame :=
  to_flat_schema ⟨MERGED_COLUMNS, (outerJoin H F).map resolveRow⟩

/-- Shorthand for the `has_hist` mask of transformation.py line 67 on one
merged row: some observed field is populated. -/
def hasHistB (m : MergedRow) : Bool :=
  (m.hist.bind RawRow.obs_tmax_c).isSome ||
    (m.hist.bind RawRow.obs_tmin_c).isSome ||
    (m.hist.bind RawRow.obs_precip_mm).isSome

/-- Shorthand for the `has_fc` mask of transformation.py line 68 on one
merged row: some forecast field is populated. -/
def hasFcB (m : MergedRow) : Bool :=
  (m.fc.bind RawRow.fc_tmax_c).isSome ||
    (m.fc.bind RawRow.fc_tmin_c).isSome ||
    (m.fc.bind RawRow.fc_precip_mm).isSome

/-! Concrete inputs used by counterexamples and witnesses. -/

/-- Input frame for the C7 witness: one row, one canonical column present,
one extraneous column. -/
def exFrameC7 : Frame :=
  ⟨["obs_tmax_c", "extra"], [[("obs_tmax_c", Val.num 7), ("extra", Val.str "x")]]⟩

/-- The normalized image of the single row of `exFrameC7`. -/
def exRowC7 : Row :=
  [("date", Val.na), ("data_type", Val.na), ("source", Val.na),
   ("ingested_at", Val.na), ("obs_tmax_c", Val.num 7), ("obs_tmin_c", Val.na),
   ("obs_precip_mm", Val.na), ("fc_tmax_c", Val.na), ("fc_tmin_c", Val.na),
   ("fc_precip_mm", Val.na)]

/-- The single row of the C5 counterexample frame: its date cell is a value
`pd.to_datetime` cannot parse. -/
def exRowC5 : Row := [("date", Val.date (.junk 0)), ("obs_tmax_c", Val.num 3)]

/-- Counterexample frame for C5: one row with an unparseable date. -/
def exFrameC5 : Frame := ⟨["date", "obs_tmax_c"], [exRowC5]⟩

/-- Historical table with a duplicated date, for the C1 counterexample. -/
def exHistC1 : List RawRow :=
  [⟨.valid 1, some 10, some 2, some 0, none, none, none,
    some "historical", some "ECCC", some 800⟩,
   ⟨.valid 1, some 11, some 3, some 1, none, none, none,
    some "historical", some "ECCC", some 800⟩]

/-- Historical table for the C1 witness. -/
def exHistC1w : List RawRow :=
  [⟨.valid 1, some 10, some 2, some 0, none, none, none,
    some "historical", some "ECCC", some 800⟩]

/-- Forecast table for the C1 witness. -/
def exFcC1w : List RawRow :=
  [⟨.valid 2, none, none, none, some 20, some 10, some 5,
    some "forecast", some "OpenMeteo", some 900⟩]

/-- Historical table for the C2 witness; its forecast cells are populated
with garbage that field isolation must ignore. -/
def exHistC2 : List RawRow :=
  [⟨.valid 1, some 10, some 1, some 0, some 99, some 99, some 99,
    some "historical", some "ECCC", some 800⟩]

/-- Forecast table for the C2 witness; its observed cells are populated
with garbage that field isolation must ignore. -/
def exFcC2 : List RawRow :=
  [⟨.valid 1, some 55, some 44, some 33, some 20, some 12, some 2,
    some "forecast", some "OpenMeteo", some 900⟩]

/-- The single output row of `merge_flat exHistC2 exFcC2`. -/
def exRowC2 : Row :=
  [("date", Val.iso 1), ("data_type", Val.str "historical"),
   ("source", Val.str "ECCC"), ("ingested_at", Val.ts 900),
   ("obs_tmax_c", Val.num 10), ("obs_tmin_c", Val.num 1),
   ("obs_precip_mm", Val.num 0), ("fc_tmax_c", Val.num 20),
   ("fc_tmin_c", Val.num 12), ("fc_precip_mm", Val.num 2)]

/-- Forecast table for the C3 failing input: a date only the forecast feed
covers, with a forecast side timestamp. -/
def exFcC3 : List RawRow :=
  [⟨.valid 1, none, none, none, some 20, some 10, some 5,
    some "forecast", some "OpenMeteo", some 900⟩]

/-- Historical table for the C4 witness: one row with every value field
absent, the degenerate `unknown` case. -/
def exHistC4 : List RawRow :=
  [⟨.valid 3, none, none, none, none, none, none,
    some "historical", some "ECCC", some 700⟩]

/-- The single output row of `merge_flat exHistC4 []`. -/
def exRowC4 : Row :=
  [("date", Val.iso 3), ("data_type", Val.str "unknown"), ("source", Val.na),
   ("ingested_at", Val.ts 700), ("obs_tmax_c", Val.na), ("obs_tmin_c", Val.na),
   ("obs_precip_mm", Val.na), ("fc_tmax_c", Val.na), ("fc_tmin_c", Val.na),
   ("fc_precip_mm", Val.na)]

/-- Historical table for the C9 counterexample: its one row has every
observed field absent, so the code classifies it `unknown`. -/
def exHistC9 : List RawRow :=
  [⟨.valid 1, none, none, none, none, none, none,
    some "historical", some "ECCC", some 100⟩]

/-- Historical table for the C9 witness. -/
def exHistC9w : List RawRow :=
  [⟨.valid 1, some 10, some 2, some 0, none, none, none,
    some "historical", some "ECCC", some 800⟩,
   ⟨.valid 2, some 12, some 4, some 1, none, none, none,
    some "historical", some "ECCC", some 800⟩]

/-- The first output row of `merge_flat exHistC9w []`. -/
def exRowC9w : Row :=
  [("date", Val.iso 1), ("data_type", Val.str "historical"),
   ("source", Val.str "ECCC"), ("ingested_at", Val.ts 800),
   ("obs_tmax_c", Val.num 10), ("obs_tmin_c", Val.num 2),
   ("obs_precip_mm", Val.num 0), ("fc_tmax_c", Val.na), ("fc_tmin_c", Val.na),
   ("fc_precip_mm", Val.na)]

/-! Facts about the normalization pass. -/

theorem normRow_keys (cols : List String) (r : Row) :
    (fixDateRow (projectRow cols r)).map Prod.fst = FLAT_COLUMNS := rfl

theorem normRow_lookup_date (cols : List String) (r : Row) :
    (fixDateRow (projectRow cols r)).lookup "date" =
      some (fixDateCell (cellVal cols r "date")) := rfl

theorem normRow_lookup_data_type (cols : List String) (r : Row) :
    (fixDateRow (projectRow cols r)).lookup "data_type" =
      some (cellVal cols r "data_type") := rfl

theorem normRow_lookup_source (cols : List String) (r : Row) :
    (fixDateRow (projectRow cols r)).lookup "source" =
      some (cellVal cols r "source") := rfl

theorem normRow_lookup_ingested_at (cols : List String) (r : Row) :
    (fixDateRow (projectRow cols r)).lookup "ingested_at" =
      some (cellVal cols r "ingested_at") := rfl

theorem normRow_lookup_obs_tmax (cols : List String) (r : Row) :
    (fixDateRow (projectRow cols r)).lookup "obs_tmax_c" =
      some (cellVal cols r "obs_tmax_c") := rfl

theorem normRow_lookup_obs_tmin (cols : List String) (r : Row) :
    (fixDateRow (projectRow cols r)).lookup "obs_tmin_c" =
      some (cellVal cols r "obs_tmin_c") := rfl

theorem normRow_lookup_obs_precip (cols : List String) (r : Row) :
    (fixDateRow (projectRow cols r)).lookup "obs_precip_mm" =
      some (cellVal cols r "obs_precip_mm") := rfl

theorem normRow_lookup_fc_tmax (cols : List String) (r : Row) :
    (fixDateRow (projectRow cols r)).lookup "fc_tmax_c" =
      some (cellVal cols r "fc_tmax_c") := rfl

theorem normRow_lookup_fc_tmin (cols : List String) (r : Row) :
    (fixDateRow (projectRow cols r)).lookup "fc_tmin_c" =
      some (cellVal cols r "fc_tmin_c") := rfl

theorem normRow_lookup_fc_precip (cols : List String) (r : Row) :
    (fixDateRow (projectRow cols r)).lookup "fc_precip_mm" =
      some (cellVal cols r "fc_precip_mm") := rfl

theorem dateKey_normRow (cols : List String) (r : Row) :
    dateKey (fixDateRow (projectRow cols r)) =
      parseDateVal (cellVal cols r "date") := by
  unfold dateKey
  rw [normRow_lookup_date]
  rcases h : parseDateVal (cellVal cols r "date") with _ | n <;>
    simp [fixDateCell, h]

theorem rows_to_flat_schema (df : Frame) :
    (to_flat_schema df).rows =
      List.insertionSort rowLe
        (df.rows.map fun r => fixDateRow (projectRow df.cols r)) := by
  unfold to_flat_schema
  simp [List.map_map]
  rfl

theorem perm_to_flat_schema (df : Frame) :
    List.Perm (to_flat_schema df).rows
      (df.rows.map fun r => fixDateRow (projectRow df.cols r)) := by
  rw [rows_to_flat_schema]
  exact List.perm_insertionSort _ _

/-- C10: `to_flat_schema` preserves the row count; a row whose date cannot
be parsed is retained with an absent date rather than removed, and the sort
places every row with an absent date after all rows with parseable dates. -/
theorem C10_row_count_preserved (df : Frame) :
    (to_flat_schema df).rows.length = df.rows.length ∧
    (to_flat_schema df).rows.countP (fun r => (dateKey r).isNone) =
      df.rows.countP
        (fun r => (parseDateVal (cellVal df.cols r "date")).isNone) ∧
    ((to_flat_schema df).rows.map dateKey).Pairwise
      (fun a b => keyLe a b = true) := by
  refine ⟨?_, ?_, ?_⟩
  · rw [(perm_to_flat_schema df).length_eq]
    simp
  · rw [(perm_to_flat_schema df).countP_eq, List.countP_map]
    apply List.countP_congr
    intro r _
    simp [Function.comp, dateKey_normRow]
  · rw [rows_to_flat_schema]
    have hs := List.sorted_insertionSort rowLe
      (df.rows.map fun r => fixDateRow (projectRow df.cols r))
    exact List.pairwise_map.mpr hs

/-- C7: every output row of `to_flat_schema` has exactly the 10 canonical
fields in canonical order; canonical fields missing from the input exist
with an absent value, and no other columns appear. -/
theorem C7_schema_completeness (df : Frame) (r : Row)
    (hr : r ∈ (to_flat_schema df).rows) :
    (to_flat_schema df).cols = FLAT_COLUMNS ∧
    r.map Prod.fst = FLAT_COLUMNS ∧
    ∀ c, c ∈ FLAT_COLUMNS → df.cols.contains c = false →
      r.lookup c = some Val.na := by
  have hmem := (perm_to_flat_schema df).mem_iff.mp hr
  rcases List.mem_map.mp hmem with ⟨r0, _, rfl⟩
  refine ⟨rfl, normRow_keys df.cols r0, ?_⟩
  intro c hc hff
  have hnc : ¬ c ∈ df.cols := by simpa using hff
  simp only [FLAT_COLUMNS, List.mem_cons, List.not_mem_nil, or_false] at hc
  rcases hc with rfl | rfl | rfl | rfl | rfl | rfl | rfl | rfl | rfl | rfl <;>
    simp [normRow_lookup_date, normRow_lookup_data_type, normRow_lookup_source,
      normRow_lookup_ingested_at, normRow_lookup_obs_tmax,
      normRow_lookup_obs_tmin, normRow_lookup_obs_precip,
      normRow_lookup_fc_tmax, normRow_lookup_fc_tmin, normRow_lookup_fc_precip,
      cellVal, hnc, fixDateCell, parseDateVal]

theorem C7_schema_completeness_witness :
    (to_flat_schema exFrameC7).cols = FLAT_COLUMNS ∧
    exRowC7.map Prod.fst = FLAT_COLUMNS ∧
    exRowC7.lookup "source" = some Val.na := by
  have h := C7_schema_completeness exFrameC7 exRowC7 (by decide)
  exact ⟨h.1, h.2.1, h.2.2 "source" (by decide) (by decide)⟩

/-- C5 counterexample: the claim says a row whose date cannot be parsed is
dropped from the output, so `exFrameC5` would normalize to zero rows; in
fact the row is kept (with its date absent) and the output has one row. -/
theorem C5_counterexample :
    parseDateVal (cellVal exFrameC5.cols exRowC5 "date") = none ∧
    exFrameC5.rows.length = 1 ∧
    ¬ (to_flat_schema exFrameC5).rows.length = 0 := by decide

/-- C5 amended: no row is ever dropped by the normalization pass — the
output rows are exactly the normalized input rows (as a permutation) — and
a row whose date cannot be parsed is retained with its date absent; an
unparseable date never aborts the merge, and nothing is logged because
nothing is dropped. -/
theorem C5_unparseable_dates_kept (df : Frame) :
    List.Perm (to_flat_schema df).rows
      (df.rows.map fun r => fixDateRow (projectRow df.cols r)) ∧
    ∀ r0 ∈ df.rows, parseDateVal (cellVal df.cols r0 "date") = none →
      (fixDateRow (projectRow df.cols r0)).lookup "date" = some Val.na := by
  refine ⟨perm_to_flat_schema df, ?_⟩
  intro r0 _ hp
  rw [normRow_lookup_date]
  simp [fixDateCell, hp]

theorem C5_unparseable_dates_kept_witness :
    List.Perm (to_flat_schema exFrameC5).rows
      (exFrameC5.rows.map fun r => fixDateRow (projectRow exFrameC5.cols r)) ∧
    (fixDateRow (projectRow exFrameC5.cols exRowC5)).lookup "date" =
      some Val.na := by
  have h := C5_unparseable_dates_kept exFrameC5
  exact ⟨h.1, h.2 exRowC5 (by decide) (by decide)⟩

example : parseDate (.valid 3) = some 3 := rfl

example :
    merge_flat [] [⟨.valid 1, none, none, none, some 20, some 10, some 5,
      some "forecast", some "OpenMeteo", some 900⟩] =
    ⟨FLAT_COLUMNS,
     [[("date", .iso 1), ("data_type", .str "forecast"),
       ("source", .str "OpenMeteo"), ("ingested_at", .na),
       ("obs_tmax_c", .na), ("obs_tmin_c", .na), ("obs_precip_mm", .na),
       ("fc_tmax_c", .num 20), ("fc_tmin_c", .num 10),
       ("fc_precip_mm", .num 5)]]⟩ := by decide

/-! Facts about the merge pipeline. -/

theorem rows_merge_flat (H F : List RawRow) :
    (merge_flat H F).rows =
      List.insertionSort rowLe ((outerJoin H F).map
        fun m => fixDateRow (projectRow MERGED_COLUMNS (resolveRow m))) := by
  unfold merge_flat
  rw [rows_to_flat_schema]
  simp [List.map_map]
  rfl

theorem perm_merge_flat (H F : List RawRow) :
    List.Perm (merge_flat H F).rows ((outerJoin H F).map
      fun m => fixDateRow (projectRow MERGED_COLUMNS (resolveRow m))) := by
  rw [rows_merge_flat]
  exact List.perm_insertionSort _ _

theorem mergeRow_lookup_date (m : MergedRow) :
    (fixDateRow (projectRow MERGED_COLUMNS (resolveRow m))).lookup "date" =
      some (fixDateCell (Val.date m.date)) := rfl

theorem mergeRow_lookup_obs_tmax (m : MergedRow) :
    (fixDateRow (projectRow MERGED_COLUMNS (resolveRow m))).lookup "obs_tmax_c" =
      some (numVal (m.hist.bind RawRow.obs_tmax_c)) := rfl

theorem mergeRow_lookup_obs_tmin (m : MergedRow) :
    (fixDateRow (projectRow MERGED_COLUMNS (resolveRow m))).lookup "obs_tmin_c" =
      some (numVal (m.hist.bind RawRow.obs_tmin_c)) := rfl

theorem mergeRow_lookup_obs_precip (m : MergedRow) :
    (fixDateRow (projectRow MERGED_COLUMNS (resolveRow m))).lookup "obs_precip_mm" =
      some (numVal (m.hist.bind RawRow.obs_precip_mm)) := rfl

theorem mergeRow_lookup_fc_tmax (m : MergedRow) :
    (fixDateRow (projectRow MERGED_COLUMNS (resolveRow m))).lookup "fc_tmax_c" =
      some (numVal (m.fc.bind RawRow.fc_tmax_c)) := rfl

theorem mergeRow_lookup_fc_tmin (m : MergedRow) :
    (fixDateRow (projectRow MERGED_COLUMNS (resolveRow m))).lookup "fc_tmin_c" =
      some (numVal (m.fc.bind RawRow.fc_tmin_c)) := rfl

theorem mergeRow_lookup_fc_precip (m : MergedRow) :
    (fixDateRow (projectRow MERGED_COLUMNS (resolveRow m))).lookup "fc_precip_mm" =
      some (numVal (m.fc.bind RawRow.fc_precip_mm)) := rfl

theorem mergeRow_lookup_ingested_at (m : MergedRow) :
    (fixDateRow (projectRow MERGED_COLUMNS (resolveRow m))).lookup "ingested_at" =
      some (tsVal (iaResolve (m.hist.bind RawRow.ingested_at)
        (m.fc.bind RawRow.ingested_at))) := rfl

theorem mergeRow_lookup_data_type (m : MergedRow) :
    (fixDateRow (projectRow MERGED_COLUMNS (resolveRow m))).lookup "data_type" =
      some (Val.str (if hasHistB m then "historical"
        else if hasFcB m then "forecast" else "unknown")) := rfl

theorem mergeRow_lookup_source (m : MergedRow) :
    (fixDateRow (projectRow MERGED_COLUMNS (resolveRow m))).lookup "source" =
      some (strVal (if hasHistB m then m.hist.bind RawRow.source
        else if hasFcB m then m.fc.bind RawRow.source else none)) := rfl

theorem mergeRow_dateKey (m : MergedRow) :
    dateKey (fixDateRow (projectRow MERGED_COLUMNS (resolveRow m))) =
      parseDate m.date := by
  unfold dateKey
  rw [mergeRow_lookup_date]
  rcases h : parseDate m.date with _ | n <;> simp [fixDateCell, parseDateVal, h]

theorem outerJoin_mem {H F : List RawRow} {m : MergedRow}
    (hm : m ∈ outerJoin H F) :
    (∀ h0, m.hist = some h0 → h0 ∈ H ∧ h0.date = m.date) ∧
    (m.hist = none → ∀ h0 ∈ H, h0.date ≠ m.date) ∧
    (∀ f0, m.fc = some f0 → f0 ∈ F ∧ f0.date = m.date) ∧
    (m.fc = none → ∀ f0 ∈ F, f0.date ≠ m.date) := by
  unfold outerJoin at hm
  rcases List.mem_append.mp hm with hl | hr
  · rcases List.mem_flatMap.mp hl with ⟨h1, hh1, hm1⟩
    unfold matchLeft at hm1
    by_cases he : ((F.filter fun f => f.date == h1.date).isEmpty)
    · rw [if_pos he] at hm1
      have hempty : ∀ f0 ∈ F, f0.date ≠ h1.date := by
        have h2 : F.filter (fun f => f.date == h1.date) = [] :=
          List.isEmpty_iff.mp he
        intro f0 hf0
        have := List.filter_eq_nil_iff.mp h2 f0 hf0
        simpa using this
      rw [List.mem_singleton] at hm1
      subst hm1
      refine ⟨?_, ?_, ?_, ?_⟩
      · intro h0 hh0
        simp only [Option.some.injEq] at hh0
        subst hh0
        exact ⟨hh1, rfl⟩
      · intro hno
        simp at hno
      · intro f0 hf0
        simp at hf0
      · intro _ f0 hf0
        exact hempty f0 hf0
    · rw [if_neg he] at hm1
      rcases List.mem_map.mp hm1 with ⟨f1, hf1, rfl⟩
      have hf1m := List.mem_filter.mp hf1
      refine ⟨?_, ?_, ?_, ?_⟩
      · intro h0 hh0
        simp only [Option.some.injEq] at hh0
        subst hh0
        exact ⟨hh1, rfl⟩
      · intro hno
        simp at hno
      · intro f0 hf0
        simp only [Option.some.injEq] at hf0
        subst hf0
        refine ⟨hf1m.1, ?_⟩
        simpa using hf1m.2
      · intro hno
        simp at hno
  · rcases List.mem_map.mp hr with ⟨f1, hf1, rfl⟩
    have hf1m := List.mem_filter.mp hf1
    have hnone : ∀ h0 ∈ H, h0.date ≠ f1.date := by
      have h2 := hf1m.2
      simp only [Bool.not_eq_eq_eq_not, Bool.not_true, List.any_eq_false] at h2
      intro h0 hh0
      have := h2 h0 hh0
      simpa using this
    refine ⟨?_, ?_, ?_, ?_⟩
    · intro h0 hh0
      simp at hh0
    · intro _ h0 hh0
      exact hnone h0 hh0
    · intro f0 hf0
      simp only [Option.some.injEq] at hf0
      subst hf0
      exact ⟨hf1m.1, rfl⟩
    · intro hno
      simp at hno

theorem outerJoin_nil_fc (H : List RawRow) :
    outerJoin H [] = H.map fun h => ⟨h.date, some h, none⟩ := by
  induction H with
  | nil => rfl
  | cons h t ih =>
    simp only [outerJoin, List.filter_nil, List.map_nil, List.append_nil,
      List.flatMap_cons] at ih ⊢
    rw [show matchLeft [] h = [⟨h.date, some h, none⟩] from rfl, ih]
    rfl

theorem filter_date_len_le (F : List RawRow)
    (hF : (F.map RawRow.date).Nodup) (d : DateVal) :
    (F.filter fun f => f.date == d).length ≤ 1 := by
  induction F with
  | nil => simp
  | cons f t ih =>
    rw [List.map_cons, List.nodup_cons] at hF
    by_cases hfd : ((f.date == d) = true)
    · have hde : f.date = d := by simpa using hfd
      have hnil : t.filter (fun g => g.date == d) = [] := by
        apply List.filter_eq_nil_iff.mpr
        intro g hg
        simp only [beq_iff_eq]
        intro hgd
        exact hF.1 (List.mem_map.mpr ⟨g, hg, by rw [hgd, hde]⟩)
      rw [List.filter_cons, if_pos hfd, hnil]
      simp
    · rw [List.filter_cons, if_neg hfd]
      exact ih hF.2

theorem matchLeft_length (F : List RawRow)
    (hF : (F.map RawRow.date).Nodup) (h : RawRow) :
    (matchLeft F h).length = 1 := by
  unfold matchLeft
  by_cases he : ((F.filter fun f => f.date == h.date).isEmpty)
  · rw [if_pos he]
    rfl
  · rw [if_neg he, List.length_map]
    have h1 := filter_date_len_le F hF h.date
    have h2 : (F.filter fun f => f.date == h.date) ≠ [] := by
      simpa [List.isEmpty_iff] using he
    have h3 := List.length_pos.mpr h2
    omega

theorem matchLeft_date {F : List RawRow} {h : RawRow} {m : MergedRow}
    (hm : m ∈ matchLeft F h) : m.date = h.date := by
  unfold matchLeft at hm
  by_cases he : ((F.filter fun f => f.date == h.date).isEmpty)
  · rw [if_pos he, List.mem_singleton] at hm
    subst hm
    rfl
  · rw [if_neg he] at hm
    rcases List.mem_map.mp hm with ⟨f, _, rfl⟩
    rfl

theorem countP_matchLeft (F : List RawRow)
    (hF : (F.map RawRow.date).Nodup) (h : RawRow) (d : DateVal) :
    (matchLeft F h).countP (fun m => m.date == d) =
      if h.date == d then 1 else 0 := by
  by_cases hd : ((h.date == d) = true)
  · rw [if_pos hd]
    have hlen : (matchLeft F h).countP (fun m => m.date == d) =
        (matchLeft F h).length := by
      apply List.countP_eq_length.mpr
      intro m hm
      rw [matchLeft_date hm]
      exact hd
    rw [hlen, matchLeft_length F hF h]
  · rw [if_neg hd]
    apply List.countP_eq_zero.mpr
    intro m hm
    rw [matchLeft_date hm]
    exact hd

theorem countP_flatMap_matchLeft (H F : List RawRow)
    (hF : (F.map RawRow.date).Nodup) (d : DateVal) :
    (H.flatMap (matchLeft F)).countP (fun m => m.date == d) =
      H.countP (fun h => h.date == d) := by
  induction H with
  | nil => rfl
  | cons h t ih =>
    rw [List.flatMap_cons, List.countP_append, ih, List.countP_cons,
      countP_matchLeft F hF h d]
    exact Nat.add_comm _ _

theorem countP_date_nodup {H : List RawRow}
    (hH : (H.map RawRow.date).Nodup) (d : DateVal) :
    H.countP (fun h => h.date == d) =
      if d ∈ H.map RawRow.date then 1 else 0 := by
  have h1 : (H.map RawRow.date).count d = H.countP (fun h => h.date == d) := by
    rw [List.count_eq_countP, List.countP_map]
    rfl
  rw [← h1]
  by_cases hd : d ∈ H.map RawRow.date
  · rw [if_pos hd]
    exact List.count_eq_one_of_mem hH hd
  · rw [if_neg hd]
    exact List.count_eq_zero.mpr hd

theorem countP_rightOnly (H F : List RawRow) (d : DateVal) :
    (((F.filter fun f => !(H.any fun h => h.date == f.date)).map
        fun f => (⟨f.date, none, some f⟩ : MergedRow)).countP
      fun m => m.date == d) =
      if H.any (fun h => h.date == d) then 0
      else F.countP (fun f => f.date == d) := by
  rw [List.countP_map, List.countP_filter]
  by_cases hd : ((H.any fun h => h.date == d) = true)
  · rw [if_pos hd]
    apply List.countP_eq_zero.mpr
    intro f _
    simp only [Function.comp]
    intro hcontra
    rcases Bool.and_eq_true_iff.mp hcontra with ⟨h1, h2⟩
    have hfd : f.date = d := by simpa using h1
    have h3 : (H.any fun h => h.date == f.date) = false := by simpa using h2
    rw [hfd, hd] at h3
    cases h3
  · rw [if_neg hd]
    have hfalse : (H.any fun h => h.date == d) = false := by
      revert hd
      cases H.any fun h => h.date == d <;> simp
    apply List.countP_congr
    intro f _
    simp only [Function.comp]
    constructor
    · intro hc
      exact (Bool.and_eq_true_iff.mp hc).1
    · intro hc
      apply Bool.and_eq_true_iff.mpr
      refine ⟨hc, ?_⟩
      have hfd : f.date = d := by simpa using hc
      rw [hfd, hfalse]
      rfl

theorem countP_outerJoin (H F : List RawRow)
    (hH : (H.map RawRow.date).Nodup) (hF : (F.map RawRow.date).Nodup)
    (d : DateVal) (hd : d ∈ H.map RawRow.date ∨ d ∈ F.map RawRow.date) :
    (outerJoin H F).countP (fun m => m.date == d) = 1 := by
  unfold outerJoin
  rw [List.countP_append, countP_flatMap_matchLeft H F hF d,
    countP_rightOnly H F d, countP_date_nodup hH d]
  by_cases hdH : d ∈ H.map RawRow.date
  · have hany : (H.any fun h => h.date == d) = true := by
      rcases List.mem_map.mp hdH with ⟨h0, hh0, hda⟩
      exact List.any_eq_true.mpr ⟨h0, hh0, by simp [hda]⟩
    rw [if_pos hdH, if_pos hany]
  · have hdF : d ∈ F.map RawRow.date := hd.resolve_left hdH
    have hany : (H.any fun h => h.date == d) = false := by
      apply List.any_eq_false.mpr
      intro h0 hh0
      simp only [beq_iff_eq]
      intro hda
      exact hdH (List.mem_map.mpr ⟨h0, hh0, hda⟩)
    rw [if_neg hdH, if_neg (by simp [hany]), countP_date_nodup hF d,
      if_pos hdF]

theorem merge_countP_valid (H F : List RawRow)
    (hH : (H.map RawRow.date).Nodup) (hF : (F.map RawRow.date).Nodup)
    (n : Nat)
    (hmem : DateVal.valid n ∈ H.map RawRow.date ∨
      DateVal.valid n ∈ F.map RawRow.date) :
    (merge_flat H F).rows.countP (fun r => dateKey r == some n) = 1 := by
  have h1 : ((outerJoin H F).map fun m =>
      fixDateRow (projectRow MERGED_COLUMNS (resolveRow m))).countP
        (fun r => dateKey r == some n) =
      (outerJoin H F).countP (fun m => m.date == DateVal.valid n) := by
    rw [List.countP_map]
    apply List.countP_congr
    intro m _
    simp only [Function.comp, mergeRow_dateKey]
    cases m.date with
    | valid k => simp [parseDate]
    | junk t => simp [parseDate]
  rw [(perm_merge_flat H F).countP_eq, h1]
  exact countP_outerJoin H F hH hF (DateVal.valid n) hmem

/-- C1 counterexample: with a date value duplicated inside the historical
input, the output contains two rows carrying that date, not exactly one. -/
theorem C1_counterexample :
    DateVal.valid 1 ∈ exHistC1.map RawRow.date ∧
    ¬ ((merge_flat exHistC1 []).rows.countP
        (fun r => dateKey r == some 1) = 1) := by decide

/-- C1 (amended): provided each input table contains each date value at
most once, every parseable date appearing in at least one input produces
exactly one output row whose date field equals it (dates present in only
one input included); rows with unparseable dates surface with the date
absent instead. -/
theorem C1_outer_join_unique_date (H F : List RawRow)
    (hH : (H.map RawRow.date).Nodup) (hF : (F.map RawRow.date).Nodup)
    (n : Nat)
    (hmem : DateVal.valid n ∈ H.map RawRow.date ∨
      DateVal.valid n ∈ F.map RawRow.date) :
    (merge_flat H F).rows.countP (fun r => dateKey r == some n) = 1 :=
  merge_countP_valid H F hH hF n hmem

theorem C1_outer_join_unique_date_witness :
    (merge_flat exHistC1w exFcC1w).rows.countP
      (fun r => dateKey r == some 1) = 1 :=
  C1_outer_join_unique_date exHistC1w exFcC1w (by decide) (by decide) 1
    (by decide)

/-- C2: every output row of `merge_flat` takes its three observed fields
exclusively from the historical row joined for that date (all three absent
when no historical row has that date) and its three forecast fields
exclusively from the forecast row joined for that date (all three absent
when no forecast row has that date), even when a date is in both inputs. -/
theorem C2_field_isolation (H F : List RawRow) (r : Row)
    (hr : r ∈ (merge_flat H F).rows) :
    ∃ m ∈ outerJoin H F,
      (∀ h0, m.hist = some h0 → h0 ∈ H ∧ h0.date = m.date) ∧
      (m.hist = none → ∀ h0 ∈ H, h0.date ≠ m.date) ∧
      (∀ f0, m.fc = some f0 → f0 ∈ F ∧ f0.date = m.date) ∧
      (m.fc = none → ∀ f0 ∈ F, f0.date ≠ m.date) ∧
      r.lookup "obs_tmax_c" = some (numVal (m.hist.bind RawRow.obs_tmax_c)) ∧
      r.lookup "obs_tmin_c" = some (numVal (m.hist.bind RawRow.obs_tmin_c)) ∧
      r.lookup "obs_precip_mm" =
        some (numVal (m.hist.bind RawRow.obs_precip_mm)) ∧
      r.lookup "fc_tmax_c" = some (numVal (m.fc.bind RawRow.fc_tmax_c)) ∧
      r.lookup "fc_tmin_c" = some (numVal (m.fc.bind RawRow.fc_tmin_c)) ∧
      r.lookup "fc_precip_mm" = some (numVal (m.fc.bind RawRow.fc_precip_mm)) ∧
      (m.hist = none → r.lookup "obs_tmax_c" = some Val.na ∧
        r.lookup "obs_tmin_c" = some Val.na ∧
        r.lookup "obs_precip_mm" = some Val.na) ∧
      (m.fc = none → r.lookup "fc_tmax_c" = some Val.na ∧
        r.lookup "fc_tmin_c" = some Val.na ∧
        r.lookup "fc_precip_mm" = some Val.na) := by
  have hmem := (perm_merge_flat H F).mem_iff.mp hr
  rcases List.mem_map.mp hmem with ⟨m, hmj, rfl⟩
  rcases outerJoin_mem hmj with ⟨hw1, hw2, hw3, hw4⟩
  refine ⟨m, hmj, hw1, hw2, hw3, hw4,
    mergeRow_lookup_obs_tmax m, mergeRow_lookup_obs_tmin m,
    mergeRow_lookup_obs_precip m, mergeRow_lookup_fc_tmax m,
    mergeRow_lookup_fc_tmin m, mergeRow_lookup_fc_precip m, ?_, ?_⟩
  · intro hn
    rw [mergeRow_lookup_obs_tmax, mergeRow_lookup_obs_tmin,
      mergeRow_lookup_obs_precip, hn]
    exact ⟨rfl, rfl, rfl⟩
  · intro hn
    rw [mergeRow_lookup_fc_tmax, mergeRow_lookup_fc_tmin,
      mergeRow_lookup_fc_precip, hn]
    exact ⟨rfl, rfl, rfl⟩

theorem C2_field_isolation_witness :
    ∃ m ∈ outerJoin exHistC2 exFcC2,
      exRowC2.lookup "obs_tmax_c" = some (numVal (m.hist.bind RawRow.obs_tmax_c)) ∧
      exRowC2.lookup "fc_tmax_c" = some (numVal (m.fc.bind RawRow.fc_tmax_c)) := by
  obtain ⟨m, hm, _, _, _, _, h5, _, _, h8, _, _, _, _⟩ :=
    C2_field_isolation exHistC2 exFcC2 exRowC2 (by decide)
  exact ⟨m, hm, h5, h8⟩

/-- C3 (code bug): when only the forecast side has a timestamp for a date,
the claim, the spec and the comment over transformation.py line 50 require
the output row to carry that timestamp; the combine lambda instead computes
the Python `max(NaT, ts)`, which is `NaT` because every comparison against
`NaT` is false, so the timestamp is lost and the output field is absent.
With both sides present, or only the historical side, the rule works. -/
theorem C3_ingested_at_lost :
    (exFcC3.map RawRow.ingested_at = [some 900]) ∧
    ((merge_flat [] exFcC3).rows.map fun r => r.lookup "ingested_at") =
      [some Val.na] ∧
    iaResolve none (some 900) = none ∧
    iaResolve (some 800) none = some 800 ∧
    iaResolve (some 800) (some 900) = some 900 := by decide

/-- C4: record kind and source of every output row follow the precedence:
some observed field present gives historical with the historical side
label; otherwise some forecast field present gives forecast with the
forecast side label; otherwise unknown with the source absent — and the all
absent case is a regular output row, not an error. -/
theorem C4_classification (H F : List RawRow) (r : Row)
    (hr : r ∈ (merge_flat H F).rows) :
    ∃ m ∈ outerJoin H F,
      (∀ h0, m.hist = some h0 → h0 ∈ H ∧ h0.date = m.date) ∧
      (∀ f0, m.fc = some f0 → f0 ∈ F ∧ f0.date = m.date) ∧
      (hasHistB m = ((r.lookup "obs_tmax_c" != some Val.na) ||
        (r.lookup "obs_tmin_c" != some Val.na) ||
        (r.lookup "obs_precip_mm" != some Val.na))) ∧
      (hasFcB m = ((r.lookup "fc_tmax_c" != some Val.na) ||
        (r.lookup "fc_tmin_c" != some Val.na) ||
        (r.lookup "fc_precip_mm" != some Val.na))) ∧
      (hasHistB m = true →
        r.lookup "data_type" = some (Val.str "historical") ∧
        r.lookup "source" = some (strVal (m.hist.bind RawRow.source))) ∧
      (hasHistB m = false → hasFcB m = true →
        r.lookup "data_type" = some (Val.str "forecast") ∧
        r.lookup "source" = some (strVal (m.fc.bind RawRow.source))) ∧
      (hasHistB m = false → hasFcB m = false →
        r.lookup "data_type" = some (Val.str "unknown") ∧
        r.lookup "source" = some Val.na) := by
  have hmem := (perm_merge_flat H F).mem_iff.mp hr
  rcases List.mem_map.mp hmem with ⟨m, hmj, rfl⟩
  rcases outerJoin_mem hmj with ⟨hw1, _, hw3, _⟩
  have hnv : ∀ x : Option Int,
      ((some (numVal x) : Option Val) != some Val.na) = x.isSome := by
    intro x
    cases x <;> rfl
  refine ⟨m, hmj, hw1, hw3, ?_, ?_, ?_, ?_, ?_⟩
  · rw [mergeRow_lookup_obs_tmax, mergeRow_lookup_obs_tmin,
      mergeRow_lookup_obs_precip, hnv, hnv, hnv]
    rfl
  · rw [mergeRow_lookup_fc_tmax, mergeRow_lookup_fc_tmin,
      mergeRow_lookup_fc_precip, hnv, hnv, hnv]
    rfl
  · intro hh
    rw [mergeRow_lookup_data_type, mergeRow_lookup_source]
    simp [hh]
  · intro hh hf
    rw [mergeRow_lookup_data_type, mergeRow_lookup_source]
    simp [hh, hf]
  · intro hh hf
    rw [mergeRow_lookup_data_type, mergeRow_lookup_source]
    simp [hh, hf, strVal]

theorem C4_classification_witness :
    ∃ m ∈ outerJoin exHistC4 [],
      exRowC4.lookup "data_type" = some (Val.str "unknown") ∧
      exRowC4.lookup "source" = some Val.na := by
  obtain ⟨m, hm, _, _, hb, hc, _, _, hunk⟩ :=
    C4_classification exHistC4 [] exRowC4 (by decide)
  have h0 : hasHistB m = false := by
    rw [hb]
    rfl
  have h1 : hasFcB m = false := by
    rw [hc]
    rfl
  exact ⟨m, hm, hunk h0 h1⟩

/-- C8: `merge_flat` is a pure function of its two input snapshots, so
re-running it on the identical inputs returns the identical output table
(same rows, same values, same order); there is no hidden state and no
nondeterminism in the embedding of the merge. -/
theorem C8_deterministic (H F : List RawRow) :
    merge_flat H F = merge_flat H F := rfl

/-- C9 counterexample: with a historical row whose observed fields are all
absent and an empty forecast table, the single output row classifies as
`unknown`, not `historical` as the claim requires of every row. -/
theorem C9_counterexample :
    (merge_flat exHistC9 []).rows.map (fun r => r.lookup "data_type") =
      [some (Val.str "unknown")] := by decide

/-- C9 (amended): merging a nonempty historical table against an empty
forecast table succeeds and yields one output row per historical row, with
exactly one row per historical date when the dates are distinct, every
forecast field absent in every row, and — provided every historical row has
at least one observed field present — record kind `historical` throughout
(an all absent row classifies `unknown` instead). -/
theorem C9_empty_forecast (H : List RawRow) (hne : H ≠ [])
    (hnd : (H.map RawRow.date).Nodup)
    (hobs : ∀ h ∈ H, (h.obs_tmax_c.isSome || h.obs_tmin_c.isSome ||
      h.obs_precip_mm.isSome) = true) :
    (merge_flat H []).rows ≠ [] ∧
    (merge_flat H []).rows.length = H.length ∧
    (∀ n, DateVal.valid n ∈ H.map RawRow.date →
      (merge_flat H []).rows.countP (fun r => dateKey r == some n) = 1) ∧
    ∀ r ∈ (merge_flat H []).rows,
      r.lookup "fc_tmax_c" = some Val.na ∧
      r.lookup "fc_tmin_c" = some Val.na ∧
      r.lookup "fc_precip_mm" = some Val.na ∧
      r.lookup "data_type" = some (Val.str "historical") := by
  have hlen : (merge_flat H []).rows.length = H.length := by
    rw [(perm_merge_flat H []).length_eq, List.length_map, outerJoin_nil_fc,
      List.length_map]
  refine ⟨?_, hlen, ?_, ?_⟩
  · intro hcontra
    rw [hcontra] at hlen
    exact hne (List.length_eq_zero.mp hlen.symm)
  · intro n hn
    exact merge_countP_valid H [] hnd (by simp) n (Or.inl hn)
  · intro r hr
    have hmem := (perm_merge_flat H []).mem_iff.mp hr
    rcases List.mem_map.mp hmem with ⟨m, hmj, rfl⟩
    rw [outerJoin_nil_fc] at hmj
    rcases List.mem_map.mp hmj with ⟨h1, hh1, rfl⟩
    refine ⟨rfl, rfl, rfl, ?_⟩
    rw [mergeRow_lookup_data_type]
    have hh : hasHistB ⟨h1.date, some h1, none⟩ = true := by
      simpa [hasHistB] using hobs h1 hh1
    simp [hh]

theorem C9_empty_forecast_witness :
    (merge_flat exHistC9w []).rows ≠ [] ∧
    (merge_flat exHistC9w []).rows.length = 2 ∧
    (merge_flat exHistC9w []).rows.countP (fun r => dateKey r == some 1) = 1 ∧
    exRowC9w.lookup "fc_tmax_c" = some Val.na ∧
    exRowC9w.lookup "data_type" = some (Val.str "historical") := by
  have h := C9_empty_forecast exHistC9w (by decide) (by decide) (by decide)
  have h4 := h.2.2.2 exRowC9w (by decide)
  refine ⟨h.1, ?_, h.2.2.1 1 (by decide), h4.1, h4.2.2.2⟩
  rw [h.2.1]
  rfl
